import Mathlib

/-!
Verification of the shared-memory registration and attach protocol of
`src/pgrx/src/shmem.rs` (the `pg_shmem_init!` hook-chaining macro and the
`PgSharedMem` two-phase driver), as a shallow embedding.

The host engine (Postgres) is modelled as explicit state: a size ledger
(`RequestAddinShmemSpace`), a named-lock ledger (`RequestNamedLWLockTranche`),
a name-to-address slot registry (`ShmemInitStruct`), a typed memory, the
depth of the addin-shmem-initialization LWLock, and an event trace recording
the temporal order of the effects.  Rust panics (the `expect` on
`CString::new`) are modelled by `Option`: the failing branch returns `none`
and, since in the source the `CString::new` call precedes every other effect
of each function, the `none` branch performing no effect is faithful.
-/

namespace Shmem

/-- Events the host observes, in order, during the attach phase. -/
inductive Event where
  | acquire
  | release
  | lookup (name : String) (size : Nat)
  | write (addr : Nat)
  | attach (addr : Nat)
  deriving DecidableEq, Repr

/-- The host state threaded through the embedded operations.  `T` is the
value type stored in shared memory (`T: Default + PGRXSharedMemory` at the
Rust side); memory is an association list from slot addresses to values,
where the most recent write is the head. -/
structure ShmemState (T : Type) where
  sizeRequests : List Nat := []
  lockRequests : List (String × Nat) := []
  slots : List (String × Nat) := []
  mem : List (Nat × T) := []
  nextAddr : Nat := 0
  lockDepth : Nat := 0
  trace : List Event := []
  deriving Repr, DecidableEq

/-- `PgLwLock<T>`: for this module only its name is relevant
(`lock.get_name()`); the pointer stored by `attach` is returned by the
embedded functions instead of being mutated in place. -/
structure PgLwLock (T : Type) where
  name : String
  deriving Repr, DecidableEq

/-- `lock.get_name()` from `src/pgrx/src/lwlock.rs` (the name the static
declaration was given). -/
def PgLwLock.get_name {T : Type} (lock : PgLwLock T) : String :=
  lock.name

/-- Whether a string contains a NUL character (the one condition under which
`CString::new` fails). -/
def hasInteriorNul (s : String) : Bool :=
  s.data.contains (Char.ofNat 0)

/-- `CString::new`: fails exactly when the string has an interior NUL byte. -/
def cstringNew (s : String) : Option String :=
  if hasInteriorNul s then none else some s

/-- `pg_sys::RequestAddinShmemSpace(n)`: append a byte-size reservation to
the size ledger. -/
def requestAddinShmemSpace {T : Type} (n : Nat) (st : ShmemState T) : ShmemState T :=
  { st with sizeRequests := st.sizeRequests ++ [n] }

/-- `pg_sys::RequestNamedLWLockTranche(name, count)`: append a named-lock
reservation to the lock ledger. -/
def requestNamedLWLockTranche {T : Type} (name : String) (count : Nat)
    (st : ShmemState T) : ShmemState T :=
  { st with lockRequests := st.lockRequests ++ [(name, count)] }

/-- `pg_sys::ShmemInitStruct(name, size, &mut found)`: locate the named slot
if it exists (found-flag true), otherwise allocate a fresh address for it
(found-flag false).  Returns the address, the found-flag, and the new state. -/
def shmemInitStruct {T : Type} (name : String) (size : Nat) (st : ShmemState T) :
    Nat × Bool × ShmemState T :=
  match st.slots.lookup name with
  | some addr => (addr, true, { st with trace := st.trace ++ [Event.lookup name size] })
  | none =>
      (st.nextAddr, false,
        { st with
            slots := st.slots ++ [(name, st.nextAddr)]
            nextAddr := st.nextAddr + 1
            trace := st.trace ++ [Event.lookup name size] })

/-- `pg_sys::LWLockAcquire(addin_shmem_init_lock, LW_EXCLUSIVE)` on the
well-known AddinShmemInitLock (`MainLWLockArray[21]`). -/
def lwLockAcquire {T : Type} (st : ShmemState T) : ShmemState T :=
  { st with lockDepth := st.lockDepth + 1, trace := st.trace ++ [Event.acquire] }

/-- `pg_sys::LWLockRelease(addin_shmem_init_lock)`. -/
def lwLockRelease {T : Type} (st : ShmemState T) : ShmemState T :=
  { st with lockDepth := st.lockDepth - 1, trace := st.trace ++ [Event.release] }

/-- `std::ptr::write(fv_shmem, v)` (and likewise the `ptr::copy` of one `T`):
store `v` at `addr` in shared memory. -/
def memWrite {T : Type} (addr : Nat) (v : T) (st : ShmemState T) : ShmemState T :=
  { st with mem := (addr, v) :: st.mem, trace := st.trace ++ [Event.write addr] }

/-- Read shared memory at `addr` (the most recent write wins). -/
def memRead {T : Type} (addr : Nat) (st : ShmemState T) : Option T :=
  st.mem.lookup addr

/-- `lock.attach(fv_shmem)`: the binding of the declaration handle to the
slot address, recorded as an event (the address is also the return value of
the embedded attach functions). -/
def attachHandle {T : Type} (addr : Nat) (st : ShmemState T) : ShmemState T :=
  { st with trace := st.trace ++ [Event.attach addr] }

/-- `PgSharedMem::pg_init_locked::<T>` (src/pgrx/src/shmem.rs:154-160).
`sz` stands for `std::mem::size_of::<T>()`.  Builds the C string from
`lock.get_name()` (panic modelled as `none`, occurring before any effect),
then requests `sz` bytes and one named LWLock under that same name. -/
def pg_init_locked {T : Type} (sz : Nat) (lock : PgLwLock T) (st : ShmemState T) :
    Option (ShmemState T) :=
  match cstringNew lock.get_name with
  | none => none
  | some name =>
      some (requestNamedLWLockTranche name 1 (requestAddinShmemSpace sz st))

/-- `PgSharedMem::pg_init_atomic::<T>` (src/pgrx/src/shmem.rs:163-167).
Requests `sz = size_of::<T>()` bytes only; no lock reservation, no name. -/
def pg_init_atomic {T : Type} (sz : Nat) (st : ShmemState T) : ShmemState T :=
  requestAddinShmemSpace sz st

/-- `PgSharedMem::shmem_init_locked::<T>` (src/pgrx/src/shmem.rs:170-187).
Builds the C string from `lock.get_name()`, acquires AddinShmemInitLock
exclusively, looks up or creates the named slot of `sz` bytes, writes
`T::default()` (`defaultVal`) into it unconditionally, attaches the handle,
and releases the lock.  Returns the final state and the bound address. -/
def shmem_init_locked {T : Type} (sz : Nat) (defaultVal : T) (lock : PgLwLock T)
    (st : ShmemState T) : Option (ShmemState T × Nat) :=
  match cstringNew lock.get_name with
  | none => none
  | some shm_name =>
      let st1 := lwLockAcquire st
      match shmemInitStruct shm_name sz st1 with
      | (fv_shmem, _found, st2) =>
          let st3 := memWrite fv_shmem defaultVal st2
          let st4 := attachHandle fv_shmem st3
          some (lwLockRelease st4, fv_shmem)

/-- `PgSharedMem::shmem_init_atomic::<T>` (src/pgrx/src/shmem.rs:190-209).
The slot name is the string of a freshly minted `Uuid::new_v4()`, passed in
as `uuid` (the caller mints a new one per call).  Acquires the lock, looks
up or creates the slot, attaches the handle FIRST, then constructs the
default on the stack and copies it into the slot, and releases the lock. -/
def shmem_init_atomic {T : Type} (sz : Nat) (defaultVal : T) (uuid : String)
    (st : ShmemState T) : Option (ShmemState T × Nat) :=
  match cstringNew uuid with
  | none => none
  | some shm_name =>
      let st1 := lwLockAcquire st
      match shmemInitStruct shm_name sz st1 with
      | (fv_shmem, _found, st2) =>
          let st3 := attachHandle fv_shmem st2
          let st4 := memWrite fv_shmem defaultVal st3
          some (lwLockRelease st4, fv_shmem)

/-- The names passed to the slot lookup during the new events of a run,
i.e. in the part of the trace of `after` that extends the trace of
`before`. -/
def newLookupNames {T : Type} (before after : ShmemState T) : List String :=
  (after.trace.drop before.trace.length).filterMap fun e =>
    match e with
    | Event.lookup n _ => some n
    | _ => none

end Shmem

namespace Shmem

/-! ### The `pg_shmem_init!` macro and the hook chain

A hook is a state transformer; the host hook slots
(`pg_sys::shmem_startup_hook`, `pg_sys::shmem_request_hook`) hold
`Option Hook`.  The macro body saves the previously installed hook in a
static and installs a replacement that first invokes the saved hook, if any,
and then performs this declaration's phase. -/

/-- A no-argument host hook, as a transformer of the host state. -/
def Hook (T : Type) : Type := ShmemState T → ShmemState T

/-- The replacement callback the macro installs: run the saved previous
hook, if present, then run this declaration's own phase `f`
(src/pgrx/src/shmem.rs:62-69, 84-91, 100-107). -/
def runPrevThen {T : Type} (prev : Option (Hook T)) (f : Hook T) : Hook T :=
  fun st => f (match prev with | some p => p st | none => st)

/-- The process-wide hook slots plus the shared-memory host state, as seen
at module load time. -/
structure ModuleState (T : Type) where
  shmem : ShmemState T
  startupHook : Option (Hook T)
  requestHook : Option (Hook T)

/-- Build configurations distinguished by the `cfg` attributes on the two
variants of `pg_shmem_init!` (feature flags pg12..pg16). -/
inductive BuildConfig where
  | pg12 | pg13 | pg14 | pg15 | pg16
  deriving DecidableEq, Repr

/-- Whether the host of this build exposes `shmem_request_hook`
(`cfg(any(feature = "pg15", feature = "pg16"))`). -/
def hasShmemRequestHook : BuildConfig → Bool
  | BuildConfig.pg15 => true
  | BuildConfig.pg16 => true
  | _ => false

/-- The `pg_shmem_init!` variant for hosts without `shmem_request_hook`
(src/pgrx/src/shmem.rs:50-72): run `$thing.pg_init()` immediately at module
load, then chain `$thing.shmem_init()` onto the startup hook slot. -/
def pg_shmem_init_combined {T : Type} (pgInit shmemInit : Hook T)
    (ms : ModuleState T) : ModuleState T :=
  { ms with
      shmem := pgInit ms.shmem
      startupHook := some (runPrevThen ms.startupHook shmemInit) }

/-- The `pg_shmem_init!` variant for pg15/pg16 hosts
(src/pgrx/src/shmem.rs:74-110): chain `$thing.pg_init()` onto the request
hook slot and `$thing.shmem_init()` onto the startup hook slot; nothing runs
at module load. -/
def pg_shmem_init_split {T : Type} (pgInit shmemInit : Hook T)
    (ms : ModuleState T) : ModuleState T :=
  { ms with
      requestHook := some (runPrevThen ms.requestHook pgInit)
      startupHook := some (runPrevThen ms.startupHook shmemInit) }

/-- The compile-time selection between the two macro variants, a function of
the build configuration alone (the `cfg` attributes at
src/pgrx/src/shmem.rs:50 and 74). -/
def pg_shmem_init_expand {T : Type} (cfg : BuildConfig) (pgInit shmemInit : Hook T)
    (ms : ModuleState T) : ModuleState T :=
  if hasShmemRequestHook cfg then pg_shmem_init_split pgInit shmemInit ms
  else pg_shmem_init_combined pgInit shmemInit ms

end Shmem

namespace Shmem

/-! ### Concrete demonstration values used by the closed witnesses -/

/-- The sizes and names passed to the slot lookup during the new events of a
run (the part of the trace of `after` extending the trace of `before`). -/
def newLookupEvents {T : Type} (before after : ShmemState T) : List (String × Nat) :=
  (after.trace.drop before.trace.length).filterMap fun e =>
    match e with
    | Event.lookup n s => some (n, s)
    | _ => none

/-- A fresh host state (module load time, nothing registered). -/
def initialState : ShmemState Int := {}

/-- A host state in which the slot named `counter` already exists at address
0 and holds the non-default value 42: the state a second attaching process
sees (the lookup will report found-flag true). -/
def preState : ShmemState Int :=
  { slots := [("counter", 0)], mem := [(0, 42)], nextAddr := 1 }

/-- The state after running the lock-protected attach phase on `preState`. -/
def lockedDemoState : ShmemState Int :=
  ((shmem_init_locked 4 0 (PgLwLock.mk "counter") preState).getD ({ }, 0)).1

/-- The state after running the lock-free attach phase on `initialState`
with the minted identifier `uuid-1`. -/
def atomicDemoState : ShmemState Int :=
  ((shmem_init_atomic 4 0 "uuid-1" initialState).getD ({ }, 0)).1

/-- The state after running the lock-free attach phase on `initialState`
with a different minted identifier, `uuid-2`. -/
def atomicDemoState2 : ShmemState Int :=
  ((shmem_init_atomic 4 0 "uuid-2" initialState).getD ({ }, 0)).1

/-- The state after one request phase for the lock named `counter`. -/
def firstRequestState : ShmemState Int :=
  (pg_init_locked 4 (PgLwLock.mk "counter") initialState).getD { }

/-- The state after a second, duplicate request phase for `counter`. -/
def secondRequestState : ShmemState Int :=
  (pg_init_locked 4 (PgLwLock.mk "counter") firstRequestState).getD { }

/-- The state after the lock-protected attach phase that follows the request
phase for `counter`. -/
def lockedAfterRequestState : ShmemState Int :=
  ((shmem_init_locked 4 0 (PgLwLock.mk "counter") firstRequestState).getD ({ }, 0)).1

/-- A module state at load time whose two hook slots already hold callbacks
registered by an earlier extension. -/
def demoModuleState : ModuleState Int :=
  ModuleState.mk initialState (some (pg_init_atomic 1)) (some (pg_init_atomic 2))

end Shmem

namespace Shmem

/-! ### Run characterizations of the attach phase -/

/-- Successful lock-protected attach when the named slot already exists at
address `a` (found-flag true): the default is still written, the handle is
attached to `a`, and the lock is acquired and released around everything. -/
theorem shmem_init_locked_found {T : Type} (sz : Nat) (d : T) (lock : PgLwLock T)
    (st : ShmemState T) (a : Nat)
    (hn : hasInteriorNul lock.get_name = false)
    (hl : st.slots.lookup lock.get_name = some a) :
    shmem_init_locked sz d lock st =
      some ({ st with
                mem := (a, d) :: st.mem
                trace := st.trace ++
                  [Event.acquire, Event.lookup lock.get_name sz,
                   Event.write a, Event.attach a, Event.release] }, a) := by
  simp [shmem_init_locked, cstringNew, hn, lwLockAcquire, shmemInitStruct, hl,
        memWrite, attachHandle, lwLockRelease, List.append_assoc]

/-- Successful lock-protected attach when the named slot does not yet exist
(found-flag false): a fresh address is allocated, the default written, the
handle attached, under the same lock bracket. -/
theorem shmem_init_locked_new {T : Type} (sz : Nat) (d : T) (lock : PgLwLock T)
    (st : ShmemState T)
    (hn : hasInteriorNul lock.get_name = false)
    (hl : st.slots.lookup lock.get_name = none) :
    shmem_init_locked sz d lock st =
      some ({ st with
                slots := st.slots ++ [(lock.get_name, st.nextAddr)]
                nextAddr := st.nextAddr + 1
                mem := (st.nextAddr, d) :: st.mem
                trace := st.trace ++
                  [Event.acquire, Event.lookup lock.get_name sz,
                   Event.write st.nextAddr, Event.attach st.nextAddr,
                   Event.release] }, st.nextAddr) := by
  simp [shmem_init_locked, cstringNew, hn, lwLockAcquire, shmemInitStruct, hl,
        memWrite, attachHandle, lwLockRelease, List.append_assoc]

/-- Successful lock-free attach when the slot named `uuid` already exists at
address `a`: the handle is attached first, then the default copied in. -/
theorem shmem_init_atomic_found {T : Type} (sz : Nat) (d : T) (uuid : String)
    (st : ShmemState T) (a : Nat)
    (hn : hasInteriorNul uuid = false)
    (hl : st.slots.lookup uuid = some a) :
    shmem_init_atomic sz d uuid st =
      some ({ st with
                mem := (a, d) :: st.mem
                trace := st.trace ++
                  [Event.acquire, Event.lookup uuid sz,
                   Event.attach a, Event.write a, Event.release] }, a) := by
  simp [shmem_init_atomic, cstringNew, hn, lwLockAcquire, shmemInitStruct, hl,
        memWrite, attachHandle, lwLockRelease, List.append_assoc]

/-- Successful lock-free attach when the slot named `uuid` does not yet
exist: fresh address, attach, then default copied in, under the lock. -/
theorem shmem_init_atomic_new {T : Type} (sz : Nat) (d : T) (uuid : String)
    (st : ShmemState T)
    (hn : hasInteriorNul uuid = false)
    (hl : st.slots.lookup uuid = none) :
    shmem_init_atomic sz d uuid st =
      some ({ st with
                slots := st.slots ++ [(uuid, st.nextAddr)]
                nextAddr := st.nextAddr + 1
                mem := (st.nextAddr, d) :: st.mem
                trace := st.trace ++
                  [Event.acquire, Event.lookup uuid sz,
                   Event.attach st.nextAddr, Event.write st.nextAddr,
                   Event.release] }, st.nextAddr) := by
  simp [shmem_init_atomic, cstringNew, hn, lwLockAcquire, shmemInitStruct, hl,
        memWrite, attachHandle, lwLockRelease, List.append_assoc]

end Shmem

namespace Shmem

/-- Full characterization of a successful lock-protected attach: the state
components every claim needs, independent of the found-flag. -/
theorem shmem_init_locked_spec {T : Type} (sz : Nat) (d : T) (lock : PgLwLock T)
    (st rs : ShmemState T) (ra : Nat)
    (h : shmem_init_locked sz d lock st = some (rs, ra)) :
    rs.mem = (ra, d) :: st.mem
      ∧ rs.trace = st.trace ++
          [Event.acquire, Event.lookup lock.get_name sz,
           Event.write ra, Event.attach ra, Event.release]
      ∧ rs.lockDepth = st.lockDepth := by
  cases hn : hasInteriorNul lock.get_name with
  | true => simp [shmem_init_locked, cstringNew, hn] at h
  | false =>
    cases hl : st.slots.lookup lock.get_name with
    | some a0 =>
      rw [shmem_init_locked_found sz d lock st a0 hn hl] at h
      simp only [Option.some.injEq, Prod.mk.injEq] at h
      obtain ⟨h1, h2⟩ := h
      subst h2
      subst h1
      exact ⟨rfl, rfl, rfl⟩
    | none =>
      rw [shmem_init_locked_new sz d lock st hn hl] at h
      simp only [Option.some.injEq, Prod.mk.injEq] at h
      obtain ⟨h1, h2⟩ := h
      subst h2
      subst h1
      exact ⟨rfl, rfl, rfl⟩

/-- Full characterization of a successful lock-free attach: same shape, but
the attach event precedes the write event. -/
theorem shmem_init_atomic_spec {T : Type} (sz : Nat) (d : T) (uuid : String)
    (st rs : ShmemState T) (ra : Nat)
    (h : shmem_init_atomic sz d uuid st = some (rs, ra)) :
    rs.mem = (ra, d) :: st.mem
      ∧ rs.trace = st.trace ++
          [Event.acquire, Event.lookup uuid sz,
           Event.attach ra, Event.write ra, Event.release]
      ∧ rs.lockDepth = st.lockDepth := by
  cases hn : hasInteriorNul uuid with
  | true => simp [shmem_init_atomic, cstringNew, hn] at h
  | false =>
    cases hl : st.slots.lookup uuid with
    | some a0 =>
      rw [shmem_init_atomic_found sz d uuid st a0 hn hl] at h
      simp only [Option.some.injEq, Prod.mk.injEq] at h
      obtain ⟨h1, h2⟩ := h
      subst h2
      subst h1
      exact ⟨rfl, rfl, rfl⟩
    | none =>
      rw [shmem_init_atomic_new sz d uuid st hn hl] at h
      simp only [Option.some.injEq, Prod.mk.injEq] at h
      obtain ⟨h1, h2⟩ := h
      subst h2
      subst h1
      exact ⟨rfl, rfl, rfl⟩

end Shmem

namespace Shmem

/-- Claim C1: for every value type, `shmem_init_locked` writes the default
value of the type into the named backing slot regardless of the found-flag
of the slot lookup (the initial state `st` is arbitrary, so it covers both
a pre-existing slot, found-flag true, and a fresh one): after the attach
phase completes, reading the slot at the bound address yields the default. -/
theorem C1_locked_attach_writes_default {T : Type} (sz : Nat) (d : T)
    (lock : PgLwLock T) (st rs : ShmemState T) (ra : Nat)
    (h : shmem_init_locked sz d lock st = some (rs, ra)) :
    memRead ra rs = some d := by
  obtain ⟨hm, _, _⟩ := shmem_init_locked_spec sz d lock st rs ra h
  simp [memRead, hm, List.lookup]

/-- Witness for C1 at a state where the slot named `counter` already exists
(found-flag true) and holds 42: the attach still leaves the default 0 in it. -/
theorem C1_locked_attach_writes_default_witness :
    shmem_init_locked 4 (0 : Int) (PgLwLock.mk "counter") preState
        = some (lockedDemoState, 0)
      ∧ memRead 0 lockedDemoState = some (0 : Int) :=
  ⟨by decide,
   C1_locked_attach_writes_default 4 0 (PgLwLock.mk "counter") preState
     lockedDemoState 0 (by decide)⟩

/-- Claim C3: the request phase of a lock-protected declaration submits a
byte-size reservation of `size_of T` and exactly one named-lock reservation
(capacity 1) under the declaration name; the lock-free request phase submits
only the byte-size reservation and touches no lock ledger. -/
theorem C3_request_phase_reservations {T : Type} (sz : Nat) (lock : PgLwLock T)
    (st stA : ShmemState T)
    (hn : hasInteriorNul lock.get_name = false) :
    pg_init_locked sz lock st
        = some { st with
                   sizeRequests := st.sizeRequests ++ [sz]
                   lockRequests := st.lockRequests ++ [(lock.get_name, 1)] }
      ∧ pg_init_atomic sz stA = { stA with sizeRequests := stA.sizeRequests ++ [sz] } := by
  constructor
  · simp [pg_init_locked, cstringNew, hn, requestAddinShmemSpace,
          requestNamedLWLockTranche]
  · rfl

/-- Witness for C3 with the name `counter` and size 4 on a fresh state. -/
theorem C3_request_phase_reservations_witness :
    pg_init_locked 4 (PgLwLock.mk "counter") initialState
        = some { initialState with
                   sizeRequests := initialState.sizeRequests ++ [4]
                   lockRequests := initialState.lockRequests ++ [("counter", 1)] }
      ∧ pg_init_atomic 4 initialState
        = { initialState with sizeRequests := initialState.sizeRequests ++ [4] } :=
  C3_request_phase_reservations 4 (PgLwLock.mk "counter") initialState initialState
    (by decide)

/-- Claim C5: in both attach variants the slot lookup, the default write and
the handle binding happen strictly between the single acquisition of the
global shared-memory-initialization lock and its single release, and the
lock depth returns to its pre-call value (acquire and release balanced). -/
theorem C5_global_lock_bracketing {T : Type} (sz : Nat) (d : T)
    (lock : PgLwLock T) (uuid : String) (stL stA rsL rsA : ShmemState T)
    (raL raA : Nat)
    (hL : shmem_init_locked sz d lock stL = some (rsL, raL))
    (hA : shmem_init_atomic sz d uuid stA = some (rsA, raA)) :
    rsL.trace.drop stL.trace.length
        = [Event.acquire, Event.lookup lock.get_name sz,
           Event.write raL, Event.attach raL, Event.release]
      ∧ rsL.lockDepth = stL.lockDepth
      ∧ rsA.trace.drop stA.trace.length
        = [Event.acquire, Event.lookup uuid sz,
           Event.attach raA, Event.write raA, Event.release]
      ∧ rsA.lockDepth = stA.lockDepth := by
  obtain ⟨_, htL, hdL⟩ := shmem_init_locked_spec sz d lock stL rsL raL hL
  obtain ⟨_, htA, hdA⟩ := shmem_init_atomic_spec sz d uuid stA rsA raA hA
  rw [htL, htA, List.drop_left, List.drop_left]
  exact ⟨rfl, hdL, rfl, hdA⟩

/-- Witness for C5: both attach variants run on concrete states. -/
theorem C5_global_lock_bracketing_witness :
    lockedDemoState.trace.drop preState.trace.length
        = [Event.acquire, Event.lookup (PgLwLock.mk (T := Int) "counter").get_name 4,
           Event.write 0, Event.attach 0, Event.release]
      ∧ lockedDemoState.lockDepth = preState.lockDepth
      ∧ atomicDemoState.trace.drop initialState.trace.length
        = [Event.acquire, Event.lookup "uuid-1" 4,
           Event.attach 0, Event.write 0, Event.release]
      ∧ atomicDemoState.lockDepth = initialState.lockDepth :=
  C5_global_lock_bracketing 4 (0 : Int) (PgLwLock.mk "counter") "uuid-1"
    preState initialState lockedDemoState atomicDemoState 0 0
    (by decide) (by decide)

/-- Claim C7: when the declaration name (or the minted identifier) cannot be
made into a C string because it contains an interior NUL, `pg_init_locked`,
`shmem_init_locked` and `shmem_init_atomic` all fail fatally: the result is
`none`, carrying no state, so in particular no partial reservation exists
(in the source the `CString::new` call precedes every reservation and every
lock operation, which the embedding mirrors by performing no effect on the
failing branch). -/
theorem C7_nul_name_fatal {T : Type} (sz : Nat) (d : T) (lock : PgLwLock T)
    (uuid : String) (st : ShmemState T)
    (hn : hasInteriorNul lock.get_name = true)
    (hu : hasInteriorNul uuid = true) :
    pg_init_locked sz lock st = none
      ∧ shmem_init_locked sz d lock st = none
      ∧ shmem_init_atomic sz d uuid st = none := by
  simp [pg_init_locked, shmem_init_locked, shmem_init_atomic, cstringNew, hn, hu]

/-- Witness for C7 with a one-character name consisting of the NUL char. -/
theorem C7_nul_name_fatal_witness :
    pg_init_locked 4 (PgLwLock.mk (T := Int) (String.mk [Char.ofNat 0])) initialState = none
      ∧ shmem_init_locked 4 (0 : Int) (PgLwLock.mk (String.mk [Char.ofNat 0]))
          initialState = none
      ∧ shmem_init_atomic 4 (0 : Int) (String.mk [Char.ofNat 0]) initialState = none :=
  C7_nul_name_fatal 4 0 (PgLwLock.mk (String.mk [Char.ofNat 0]))
    (String.mk [Char.ofNat 0]) initialState (by decide) (by decide)

end Shmem

namespace Shmem

/-- Claim C2: the replacement installed in the startup-hook slot first
invokes the saved previous hook (when one was present) and only then runs
this declaration's `shmem_init`; this holds in both macro variants, and on
pg15/pg16 the request-hook replacement likewise runs the saved previous
request hook before this declaration's `pg_init`. -/
theorem C2_hook_chaining {T : Type} (pgInit shmemInit p q : Hook T)
    (ms : ModuleState T) (st : ShmemState T)
    (hs : ms.startupHook = some p) (hr : ms.requestHook = some q) :
    ((pg_shmem_init_combined pgInit shmemInit ms).startupHook.getD id) st
        = shmemInit (p st)
      ∧ ((pg_shmem_init_split pgInit shmemInit ms).startupHook.getD id) st
        = shmemInit (p st)
      ∧ ((pg_shmem_init_split pgInit shmemInit ms).requestHook.getD id) st
        = pgInit (q st) := by
  simp [pg_shmem_init_combined, pg_shmem_init_split, runPrevThen, hs, hr]

/-- Witness for C2: previously registered hooks (reserving 1 and 2 bytes)
still run, before the new declaration's phases (reserving 3 and 4 bytes). -/
theorem C2_hook_chaining_witness :
    ((pg_shmem_init_combined (pg_init_atomic 3) (pg_init_atomic 4)
          demoModuleState).startupHook.getD id) initialState
        = pg_init_atomic 4 (pg_init_atomic 1 initialState)
      ∧ ((pg_shmem_init_split (pg_init_atomic 3) (pg_init_atomic 4)
          demoModuleState).startupHook.getD id) initialState
        = pg_init_atomic 4 (pg_init_atomic 1 initialState)
      ∧ ((pg_shmem_init_split (pg_init_atomic 3) (pg_init_atomic 4)
          demoModuleState).requestHook.getD id) initialState
        = pg_init_atomic 3 (pg_init_atomic 2 initialState) :=
  C2_hook_chaining (pg_init_atomic 3) (pg_init_atomic 4) (pg_init_atomic 1)
    (pg_init_atomic 2) demoModuleState initialState rfl rfl

/-- Claim C4: the choice between the combined topology (request phase run
immediately at module load, only the startup hook installed) and the split
topology (request hook and startup hook both installed, request phase
deferred into the request hook) is a function of the build configuration
alone; under an old configuration `pg_init` runs during the macro body and
the request-hook slot is untouched, under a pg15/pg16 configuration the
load-time state is unchanged and `pg_init` runs exactly when the host
invokes the installed request hook. -/
theorem C4_compile_time_topology {T : Type} (cfgOld cfgNew : BuildConfig)
    (pgInit shmemInit : Hook T) (ms : ModuleState T) (st : ShmemState T)
    (q : Hook T)
    (hOld : hasShmemRequestHook cfgOld = false)
    (hNew : hasShmemRequestHook cfgNew = true)
    (hq : ms.requestHook = some q) :
    pg_shmem_init_expand cfgOld pgInit shmemInit ms
        = pg_shmem_init_combined pgInit shmemInit ms
      ∧ (pg_shmem_init_expand cfgOld pgInit shmemInit ms).shmem = pgInit ms.shmem
      ∧ (pg_shmem_init_expand cfgOld pgInit shmemInit ms).requestHook = ms.requestHook
      ∧ pg_shmem_init_expand cfgNew pgInit shmemInit ms
        = pg_shmem_init_split pgInit shmemInit ms
      ∧ (pg_shmem_init_expand cfgNew pgInit shmemInit ms).shmem = ms.shmem
      ∧ ((pg_shmem_init_expand cfgNew pgInit shmemInit ms).requestHook.getD id) st
        = pgInit (q st) := by
  refine ⟨?_, ?_, ?_, ?_, ?_, ?_⟩ <;>
    simp [pg_shmem_init_expand, hOld, hNew, pg_shmem_init_combined,
      pg_shmem_init_split, runPrevThen, hq]

/-- Witness for C4 with the pg14 and pg16 configurations on a module state
holding previously registered hooks. -/
theorem C4_compile_time_topology_witness :
    pg_shmem_init_expand BuildConfig.pg14 (pg_init_atomic 3) (pg_init_atomic 4)
        demoModuleState
        = pg_shmem_init_combined (pg_init_atomic 3) (pg_init_atomic 4) demoModuleState
      ∧ (pg_shmem_init_expand BuildConfig.pg14 (pg_init_atomic 3) (pg_init_atomic 4)
          demoModuleState).shmem = pg_init_atomic 3 demoModuleState.shmem
      ∧ (pg_shmem_init_expand BuildConfig.pg14 (pg_init_atomic 3) (pg_init_atomic 4)
          demoModuleState).requestHook = demoModuleState.requestHook
      ∧ pg_shmem_init_expand BuildConfig.pg16 (pg_init_atomic 3) (pg_init_atomic 4)
          demoModuleState
        = pg_shmem_init_split (pg_init_atomic 3) (pg_init_atomic 4) demoModuleState
      ∧ (pg_shmem_init_expand BuildConfig.pg16 (pg_init_atomic 3) (pg_init_atomic 4)
          demoModuleState).shmem = demoModuleState.shmem
      ∧ ((pg_shmem_init_expand BuildConfig.pg16 (pg_init_atomic 3) (pg_init_atomic 4)
          demoModuleState).requestHook.getD id) initialState
        = pg_init_atomic 3 (pg_init_atomic 2 initialState) :=
  C4_compile_time_topology BuildConfig.pg14 BuildConfig.pg16 (pg_init_atomic 3)
    (pg_init_atomic 4) demoModuleState initialState (pg_init_atomic 2)
    rfl rfl rfl

end Shmem

namespace Shmem

/-- Counterexample to claim C6: invoking the request phase twice for the
same lock-protected name `counter` is NOT rejected or flagged — the second
call also returns normally and the lock ledger silently holds two identical
reservations. -/
theorem C6_counterexample :
    ((pg_init_locked 4 (PgLwLock.mk "counter") initialState).bind
        (fun s => pg_init_locked 4 (PgLwLock.mk "counter") s)).map
        (fun s => s.lockRequests)
      = some [("counter", 1), ("counter", 1)] := by
  decide

/-- Claim C6 as amended: a duplicate invocation of `pg_init_locked` for the
same name is not rejected; it silently submits a second byte-size and a
second named-lock reservation under that name — invoking the request phase
exactly once per declaration is the responsibility of the caller. -/
theorem C6_duplicate_request_silently_reserves {T : Type} (sz : Nat)
    (lock : PgLwLock T) (st st1 st2 : ShmemState T)
    (h1 : pg_init_locked sz lock st = some st1)
    (h2 : pg_init_locked sz lock st1 = some st2) :
    st2.lockRequests = st.lockRequests ++ [(lock.get_name, 1), (lock.get_name, 1)]
      ∧ st2.sizeRequests = st.sizeRequests ++ [sz, sz] := by
  cases hn : hasInteriorNul lock.get_name with
  | true => simp [pg_init_locked, cstringNew, hn] at h1
  | false =>
    simp only [pg_init_locked, cstringNew, hn, Bool.false_eq_true, if_false,
      requestAddinShmemSpace, requestNamedLWLockTranche, Option.some.injEq] at h1 h2
    subst h1
    subst h2
    simp

/-- Witness for the amended C6 on concrete states. -/
theorem C6_duplicate_request_silently_reserves_witness :
    secondRequestState.lockRequests
        = initialState.lockRequests ++ [("counter", 1), ("counter", 1)]
      ∧ secondRequestState.sizeRequests = initialState.sizeRequests ++ [4, 4] :=
  C6_duplicate_request_silently_reserves 4 (PgLwLock.mk "counter") initialState
    firstRequestState secondRequestState (by decide) (by decide)

/-- Claim C8: the lock-free attach phase uses the freshly minted identifier
itself as the slot name — the single slot-lookup performed by a call is
under exactly the minted identifier — so two calls whose minted identifiers
differ pass different names to the slot lookup. -/
theorem C8_fresh_identifier_distinct_slot_names {T : Type} (sz1 sz2 : Nat)
    (d1 d2 : T) (u1 u2 : String) (st1 st2 rs1 rs2 : ShmemState T) (ra1 ra2 : Nat)
    (h1 : shmem_init_atomic sz1 d1 u1 st1 = some (rs1, ra1))
    (h2 : shmem_init_atomic sz2 d2 u2 st2 = some (rs2, ra2))
    (hne : u1 ≠ u2) :
    newLookupNames st1 rs1 = [u1] ∧ newLookupNames st2 rs2 = [u2]
      ∧ newLookupNames st1 rs1 ≠ newLookupNames st2 rs2 := by
  obtain ⟨_, ht1, _⟩ := shmem_init_atomic_spec sz1 d1 u1 st1 rs1 ra1 h1
  obtain ⟨_, ht2, _⟩ := shmem_init_atomic_spec sz2 d2 u2 st2 rs2 ra2 h2
  have e1 : newLookupNames st1 rs1 = [u1] := by
    simp only [newLookupNames]
    rw [ht1, List.drop_left]
    rfl
  have e2 : newLookupNames st2 rs2 = [u2] := by
    simp only [newLookupNames]
    rw [ht2, List.drop_left]
    rfl
  refine ⟨e1, e2, ?_⟩
  rw [e1, e2]
  simp only [ne_eq, List.cons.injEq, and_true]
  exact hne

/-- Witness for C8: two attach calls with the identifiers `uuid-1` and
`uuid-2` resolve to the two distinct slot names. -/
theorem C8_fresh_identifier_distinct_slot_names_witness :
    newLookupNames initialState atomicDemoState = ["uuid-1"]
      ∧ newLookupNames initialState atomicDemoState2 = ["uuid-2"]
      ∧ newLookupNames initialState atomicDemoState
          ≠ newLookupNames initialState atomicDemoState2 :=
  C8_fresh_identifier_distinct_slot_names 4 4 (0 : Int) 0 "uuid-1" "uuid-2"
    initialState initialState atomicDemoState atomicDemoState2 0 0
    (by decide) (by decide) (by decide)

/-- Claim C9: the two phases of a lock-protected declaration agree: the
request phase reserves the named lock under `lock.get_name` and `sz` bytes,
and the attach phase performs its single slot lookup under the very same
name with the very same size. -/
theorem C9_phase_name_size_consistency {T : Type} (sz : Nat) (d : T)
    (lock : PgLwLock T) (st st1 rs : ShmemState T) (ra : Nat)
    (h1 : pg_init_locked sz lock st = some st1)
    (h2 : shmem_init_locked sz d lock st1 = some (rs, ra)) :
    st1.lockRequests = st.lockRequests ++ [(lock.get_name, 1)]
      ∧ st1.sizeRequests = st.sizeRequests ++ [sz]
      ∧ newLookupEvents st1 rs = [(lock.get_name, sz)] := by
  obtain ⟨_, ht, _⟩ := shmem_init_locked_spec sz d lock st1 rs ra h2
  cases hn : hasInteriorNul lock.get_name with
  | true => simp [pg_init_locked, cstringNew, hn] at h1
  | false =>
    simp only [pg_init_locked, cstringNew, hn, Bool.false_eq_true, if_false,
      requestAddinShmemSpace, requestNamedLWLockTranche, Option.some.injEq] at h1
    subst h1
    refine ⟨rfl, rfl, ?_⟩
    simp only [newLookupEvents]
    rw [ht, List.drop_left]
    rfl

/-- Witness for C9 on concrete states: request phase then attach phase for
the declaration named `counter` of size 4. -/
theorem C9_phase_name_size_consistency_witness :
    firstRequestState.lockRequests = initialState.lockRequests ++ [("counter", 1)]
      ∧ firstRequestState.sizeRequests = initialState.sizeRequests ++ [4]
      ∧ newLookupEvents firstRequestState lockedAfterRequestState = [("counter", 4)] :=
  C9_phase_name_size_consistency 4 (0 : Int) (PgLwLock.mk "counter") initialState
    firstRequestState lockedAfterRequestState 0 (by decide) (by decide)

/-- Claim C10: the two attach variants order binding and default-write
oppositely — in the locked variant the write event immediately precedes the
attach event, in the atomic variant the attach event immediately precedes
the write event — and in both variants, on return the handle is bound (the
attach event for the returned address is in the trace) and the slot holds
the default value. -/
theorem C10_opposite_bind_write_order {T : Type} (sz : Nat) (d : T)
    (lock : PgLwLock T) (uuid : String) (stL stA rsL rsA : ShmemState T)
    (raL raA : Nat)
    (hL : shmem_init_locked sz d lock stL = some (rsL, raL))
    (hA : shmem_init_atomic sz d uuid stA = some (rsA, raA)) :
    rsL.trace = (stL.trace ++ [Event.acquire, Event.lookup lock.get_name sz])
        ++ [Event.write raL, Event.attach raL] ++ [Event.release]
      ∧ memRead raL rsL = some d
      ∧ rsA.trace = (stA.trace ++ [Event.acquire, Event.lookup uuid sz])
        ++ [Event.attach raA, Event.write raA] ++ [Event.release]
      ∧ memRead raA rsA = some d := by
  obtain ⟨hmL, htL, _⟩ := shmem_init_locked_spec sz d lock stL rsL raL hL
  obtain ⟨hmA, htA, _⟩ := shmem_init_atomic_spec sz d uuid stA rsA raA hA
  refine ⟨?_, ?_, ?_, ?_⟩
  · rw [htL]; simp
  · simp [memRead, hmL, List.lookup]
  · rw [htA]; simp
  · simp [memRead, hmA, List.lookup]

/-- Witness for C10 on concrete runs of both variants. -/
theorem C10_opposite_bind_write_order_witness :
    lockedDemoState.trace
        = (preState.trace ++ [Event.acquire,
            Event.lookup (PgLwLock.mk (T := Int) "counter").get_name 4])
          ++ [Event.write 0, Event.attach 0] ++ [Event.release]
      ∧ memRead 0 lockedDemoState = some (0 : Int)
      ∧ atomicDemoState.trace
        = (initialState.trace ++ [Event.acquire, Event.lookup "uuid-1" 4])
          ++ [Event.attach 0, Event.write 0] ++ [Event.release]
      ∧ memRead 0 atomicDemoState = some (0 : Int) :=
  C10_opposite_bind_write_order 4 (0 : Int) (PgLwLock.mk "counter") "uuid-1"
    preState initialState lockedDemoState atomicDemoState 0 0
    (by decide) (by decide)

end Shmem
